import Mathlib

/-!
Shallow embedding of the `mmio` crate (src/lib.rs, src/vcell.rs, src/reg.rs).

Modelling choices:
- A raw address `*mut T` is a `Nat`.
- Memory backing a value type `T` is `Mem T := Nat → T`: a `T`-slot is keyed by
  its starting byte address.  This abstracts byte layout at the granularity the
  crate manipulates (whole `T` values via `read_volatile`/`write_volatile`).
- Every volatile primitive records the volatile memory transaction it issues as
  an explicit `Event`, so "performs exactly one volatile load/store" and
  "two sequential volatile operations" are statable.  The memory after a
  sequence of operations is obtained by folding the emitted trace.
- The Rust crate has three distinct uninhabited marker enums `Allow`, `Warn`,
  `Deny` used as type parameters.  Here they are the three constructors of
  `Access`, and `VolBox` is indexed by two `Access` values.  Which read/write
  impl blocks exist in src/lib.rs is recorded by the `Readable`/`Writable`
  predicates: lib.rs has a read impl for `Warn` (lines 92-104) and for `Allow`
  (lines 106-115), a write impl for `Warn` (lines 117-127) and for `Allow`
  (lines 129-136), and none for `Deny`.
- Rust `&mut self` methods are embedded as state passing: they return the
  (possibly updated) receiver next to the trace they emit.  `&self` methods
  return only their result and trace, since a shared borrow cannot change the
  handle.
- A Rust `assert!` failure (panic/abort) is `Option.none`.
-/

/-- The three access markers of src/lib.rs lines 39-49, as one closed tag set. -/
inductive Access : Type where
  | Allow : Access
  | Warn : Access
  | Deny : Access
deriving DecidableEq

/-- A single volatile memory transaction on a `T`-typed location. -/
inductive Event (T : Type) where
  | load : Nat → T → Event T
  | store : Nat → T → Event T
deriving DecidableEq

/-- Memory backing `T`-typed volatile locations: each slot keyed by its address. -/
def Mem (T : Type) : Type := Nat → T

/-- Pointwise update of one `T`-slot. -/
def memUpd {T : Type} (m : Mem T) (a : Nat) (v : T) : Mem T :=
  fun x => if x = a then v else m x

/-- Effect of one volatile transaction on memory: loads change nothing,
a store updates exactly its own slot. -/
def applyEvent {T : Type} (m : Mem T) : Event T → Mem T
  | .load _ _ => m
  | .store a v => memUpd m a v

/-- Effect of a trace of volatile transactions, oldest first. -/
def applyTrace {T : Type} (m : Mem T) (tr : List (Event T)) : Mem T :=
  tr.foldl applyEvent m

/-- Embedding of `core::ptr::read_volatile`: returns the value in the slot and
the single load transaction it issues. -/
def read_volatile {T : Type} (m : Mem T) (a : Nat) : T × List (Event T) :=
  (m a, [Event.load a (m a)])

/-- Embedding of `core::ptr::write_volatile`: the single store transaction it
issues. -/
def write_volatile {T : Type} (a : Nat) (v : T) : List (Event T) :=
  [Event.store a v]

/-- `VolBox<T, R, W>` (src/lib.rs lines 51-59): an owned memory location; the
two `PhantomData` permission parameters become `Access` indices, and the only
runtime datum is the raw address `loc`. -/
structure VolBox (T : Type) (R : Access) (W : Access) where
  loc : Nat
deriving DecidableEq

/-- `VolBox::new` (src/lib.rs lines 78-84): stores the address; the body is a
plain struct literal and performs no check of any kind. -/
def VolBox.new {T : Type} {R W : Access} (a : Nat) : VolBox T R W :=
  ⟨a⟩

/-- Abort-aware reading of `VolBox::new`: the body contains no assertion and no
panicking call, so acquisition always completes with the handle. -/
def VolBox.new_outcome {T : Type} {R W : Access} (a : Nat) : Option (VolBox T R W) :=
  some (VolBox.new a)

/-- `VolBox::into_raw` (src/lib.rs lines 86-89): releases ownership, returning
the stored address. -/
def VolBox.into_raw {T : Type} {R W : Access} (vb : VolBox T R W) : Nat :=
  vb.loc

/-- The read-permission tags for which src/lib.rs declares a `read`/`read_at`
impl block: `Warn` (lines 92-104, 138-159) and `Allow` (lines 106-115,
161-179).  No impl exists for `Deny`. -/
inductive Readable : Access → Prop where
  | warn : Readable Access.Warn
  | allow : Readable Access.Allow

/-- The write-permission tags for which src/lib.rs declares a `write`/`write_at`
impl block: `Warn` (lines 117-127, 181-200) and `Allow` (lines 129-136,
202-218).  No impl exists for `Deny`. -/
inductive Writable : Access → Prop where
  | warn : Writable Access.Warn
  | allow : Writable Access.Allow

/-- `VolBox::read` (src/lib.rs lines 98-103 and 109-114, identical bodies):
one volatile read of the owned location.  Takes `&self`, so it returns no
updated handle.  The `Readable` evidence is the existence of the impl block. -/
def VolBox.read {T : Type} {R W : Access} (vb : VolBox T R W) (_h : Readable R)
    (m : Mem T) : T × List (Event T) :=
  read_volatile m vb.loc

/-- `VolBox::write` (src/lib.rs lines 122-126 and 131-135, identical bodies):
one volatile write to the owned location.  Takes `&mut self`, embedded as
returning the receiver after the call; the body assigns no field, so the
returned handle is the receiver unchanged. -/
def VolBox.write {T : Type} {R W : Access} (vb : VolBox T R W) (_h : Writable W)
    (v : T) : VolBox T R W × List (Event T) :=
  (vb, write_volatile vb.loc v)

/-- `VolBox::<[T; N], _, _>::read_at` (src/lib.rs lines 148-158 and 168-178):
`assert!(i < N)` then a volatile read at `loc.add(i)` after casting to
`*mut T`.  The array type `[T; N]` is `Fin N → T`; `z` is `size_of::<T>()`, so
`loc.add(i)` lands at byte address `loc + i * z`.  A failed assert is `none`. -/
def VolBox.read_at {T : Type} {R W : Access} {N : Nat} (vb : VolBox (Fin N → T) R W)
    (_h : Readable R) (z : Nat) (i : Nat) (m : Mem T) : Option (T × List (Event T)) :=
  if i < N then some (read_volatile m (vb.loc + i * z)) else none

/-- `VolBox::<[T; N], _, _>::write_at` (src/lib.rs lines 190-199 and 208-217):
`assert!(i < N)` then a volatile write at `loc.add(i)` after casting to
`*mut T`.  `&mut self` is embedded as returning the receiver, which the body
leaves unchanged. -/
def VolBox.write_at {T : Type} {R W : Access} {N : Nat} (vb : VolBox (Fin N → T) R W)
    (_h : Writable W) (z : Nat) (i : Nat) (v : T) :
    Option (VolBox (Fin N → T) R W × List (Event T)) :=
  if i < N then some (vb, write_volatile (vb.loc + i * z) v) else none

/-- Modelled from the spec: the unsafe batch acquisition `acquire-range(base,
count)` of spec section 4.2 is absent from src/ (src/vcell.rs line 38 leaves
`conjure_many` as a TODO and src/lib.rs has no batch constructor).  Following
the spec's words: `count` independent handles, each slot's address computed
directly from `base` and its index with natural spacing `z` bytes per slot. -/
def acquireRange {T : Type} {R W : Access} (b : Nat) (z : Nat) (n : Nat) :
    List (VolBox T R W) :=
  (List.range n).map (fun i => VolBox.new (b + i * z))

/-- `VCell<T>` (src/vcell.rs lines 6-10): `repr(transparent)` over
`UnsafeCell<T>`, so a `&VCell<T>` conjured from an address is the address; the
`self.value.get()` raw pointer inside every accessor is exactly that address. -/
structure VCell (T : Type) where
  address : Nat
deriving DecidableEq

/-- `VCell::conjure` (src/vcell.rs lines 25-36): reinterprets the address as a
cell reference. -/
def VCell.conjure {T : Type} (a : Nat) : VCell T :=
  ⟨a⟩

/-- `VCell::set` (src/vcell.rs lines 43-48): one volatile write to the cell's
location. -/
def VCell.set {T : Type} (c : VCell T) (v : T) : List (Event T) :=
  write_volatile c.address v

/-- `VCell::get` (src/vcell.rs lines 58-64): one volatile read of the cell's
location, returning a copy. -/
def VCell.get {T : Type} (c : VCell T) (m : Mem T) : T × List (Event T) :=
  read_volatile m c.address

/-- `VCell::replace` (src/vcell.rs lines 51-55): `let old = self.get();
self.set(val); old` — the get's transaction followed by the set's. -/
def VCell.replace {T : Type} (c : VCell T) (v : T) (m : Mem T) : T × List (Event T) :=
  let old := c.get m
  (old.1, old.2 ++ c.set v)

/-- The `Reg` trait (src/reg.rs lines 6-14): a register descriptor exposing one
volatile cell of the raw value type `V`. -/
structure Reg (V : Type) where
  cell : VCell V

/-- `Reg::access_with` (src/reg.rs lines 11-13): applies the closure to the
descriptor's cell. -/
def Reg.access_with {V A : Type} (r : Reg V) (f : VCell V → A) : A :=
  f r.cell

/-- The `ReadReg` trait (src/reg.rs lines 17-27): adds a read type `D` with the
`From<Val>` conversion `from_val`. -/
structure ReadReg (V : Type) (D : Type) extends Reg V where
  from_val : V → D

/-- `ReadReg::read` default body (src/reg.rs lines 22-26):
`self.access_with(|vc| vc.get()).into()`. -/
def ReadReg.read {V D : Type} (r : ReadReg V D) (m : Mem V) : D × List (Event V) :=
  let p := r.toReg.access_with (fun vc => vc.get m)
  (r.from_val p.1, p.2)

/-- The `WriteReg` trait (src/reg.rs lines 30-40): adds a write type `S` with
the `Into<Val>` conversion `into_val`. -/
structure WriteReg (V : Type) (S : Type) extends Reg V where
  into_val : S → V

/-- `WriteReg::write` default body (src/reg.rs lines 35-39):
`let v = w.into(); self.access_with(|vc| vc.set(v))`. -/
def WriteReg.write {V S : Type} (r : WriteReg V S) (w : S) : List (Event V) :=
  r.toReg.access_with (fun vc => vc.set (r.into_val w))

/-- One `read`/`write` call on a scalar handle, as data for sequencing. -/
inductive ScalarOp (T : Type) where
  | read : ScalarOp T
  | write : T → ScalarOp T

/-- Runs one scalar operation: the handle returned by the method next to the
memory after its trace. -/
def stepScalar {T : Type} {R W : Access} (hr : Readable R) (hw : Writable W)
    (s : VolBox T R W × Mem T) (op : ScalarOp T) : VolBox T R W × Mem T :=
  match op with
  | .read => (s.1, applyTrace s.2 (s.1.read hr s.2).2)
  | .write v =>
    let p := s.1.write hw v
    (p.1, applyTrace s.2 p.2)

/-- One `read_at`/`write_at` call on an array handle, as data for sequencing. -/
inductive IdxOp (T : Type) where
  | read_at : Nat → IdxOp T
  | write_at : Nat → T → IdxOp T

/-- Runs one indexed operation; `none` is a panicked (aborted) run, which stays
aborted. -/
def stepIdx {T : Type} {R W : Access} {N : Nat} (hr : Readable R) (hw : Writable W)
    (z : Nat) (s : Option (VolBox (Fin N → T) R W × Mem T)) (op : IdxOp T) :
    Option (VolBox (Fin N → T) R W × Mem T) :=
  match s with
  | none => none
  | some (vb, m) =>
    match op with
    | .read_at i => (vb.read_at hr z i m).map (fun p => (vb, applyTrace m p.2))
    | .write_at i v => (vb.write_at hw z i v).map (fun p => (p.1, applyTrace m p.2))

theorem memUpd_self {T : Type} (m : Mem T) (a : Nat) (v : T) : memUpd m a v a = v := by
  simp [memUpd]

theorem memUpd_other {T : Type} (m : Mem T) (a x : Nat) (v : T) (h : x ≠ a) :
    memUpd m a v x = m x := by
  simp [memUpd, h]

/-- C1: for every handle whose two tags both permit access — in particular
`Allow`/`Allow` — and any backing memory, `write(v)` followed by `read()`
returns exactly `v`, for every value `v` of the value type. -/
theorem volbox_write_then_read {T : Type} {R W : Access} (hr : Readable R)
    (hw : Writable W) (vb : VolBox T R W) (v : T) (m : Mem T) :
    ((vb.write hw v).1.read hr (applyTrace m (vb.write hw v).2)).1 = v := by
  simp [VolBox.read, VolBox.write, read_volatile, write_volatile, applyTrace,
    applyEvent, memUpd]

theorem volbox_write_then_read_witness :
    (((VolBox.new 4096 : VolBox Nat Access.Allow Access.Allow).write Writable.allow 7).1.read
        Readable.allow
        (applyTrace (fun _ => 0)
          ((VolBox.new 4096 : VolBox Nat Access.Allow Access.Allow).write Writable.allow 7).2)).1
      = 7 :=
  volbox_write_then_read Readable.allow Writable.allow (VolBox.new 4096) 7 (fun _ => 0)

/-- C2: for every address, value type and pair of permission tags, `new`
followed immediately by `into_raw` returns the original address unchanged. -/
theorem new_then_into_raw {T : Type} (R W : Access) (a : Nat) :
    (VolBox.new a : VolBox T R W).into_raw = a :=
  rfl

/-- C3: `acquire-range(base, count)` (modelled from the spec; absent from src/)
returns `count` handles whose addresses are exactly `base`, `base + z`, …,
`base + (count - 1) * z`, each computed directly from `base` and its index,
and — for a value type of nonzero size — pairwise distinct. -/
theorem acquireRange_addresses {T : Type} {R W : Access} (b z n : Nat) (hz : 0 < z) :
    ((acquireRange b z n : List (VolBox T R W)).map VolBox.into_raw
        = (List.range n).map (fun i => b + i * z))
    ∧ (acquireRange b z n : List (VolBox T R W)).length = n
    ∧ ((acquireRange b z n : List (VolBox T R W)).map VolBox.into_raw).Nodup := by
  have hmap : ((acquireRange b z n : List (VolBox T R W)).map VolBox.into_raw
      = (List.range n).map (fun i => b + i * z)) := by
    simp [acquireRange, List.map_map]
    exact fun a _ => rfl
  refine ⟨hmap, by simp [acquireRange], ?_⟩
  rw [hmap]
  refine List.Nodup.map ?_ (List.nodup_range n)
  intro i j hij
  exact Nat.eq_of_mul_eq_mul_right hz (Nat.add_left_cancel hij)

theorem acquireRange_addresses_witness :
    ((acquireRange 256 4 3 : List (VolBox Nat Access.Allow Access.Allow)).map
        VolBox.into_raw).Nodup
    ∧ (acquireRange 256 4 3 : List (VolBox Nat Access.Allow Access.Allow)).length = 3 :=
  ⟨(acquireRange_addresses 256 4 3 (by decide)).2.2,
    (acquireRange_addresses 256 4 3 (by decide)).2.1⟩

/-- C4: on an `N`-element array handle, `read_at i` and `write_at i v` abort
exactly when `N ≤ i`; for `i < N` each performs exactly one volatile
load/store of one element at address `base + i * size`, the very transaction a
single-element handle acquired at that offset performs, and `write_at` leaves
the handle unchanged. -/
theorem read_at_write_at_spec {T : Type} {R W : Access} {N : Nat}
    (hr : Readable R) (hw : Writable W) (vb : VolBox (Fin N → T) R W)
    (z i : Nat) (v : T) (m : Mem T) :
    ((vb.read_at hr z i m = none ↔ N ≤ i)
      ∧ (vb.write_at hw z i v = none ↔ N ≤ i))
    ∧ ∀ hi : i < N,
        vb.read_at hr z i m
            = some ((VolBox.new (vb.loc + i * z) : VolBox T R W).read hr m)
        ∧ vb.write_at hw z i v
            = some (vb, ((VolBox.new (vb.loc + i * z) : VolBox T R W).write hw v).2)
        ∧ (vb.read_at hr z i m).map Prod.snd
            = some [Event.load (vb.loc + i * z) (m (vb.loc + i * z))]
        ∧ (vb.write_at hw z i v).map Prod.snd
            = some [Event.store (vb.loc + i * z) v] := by
  constructor
  · constructor <;>
      (by_cases hi : i < N <;> simp [VolBox.read_at, VolBox.write_at, hi] <;> omega)
  · intro hi
    refine ⟨?_, ?_, ?_, ?_⟩ <;>
      simp [VolBox.read_at, VolBox.write_at, VolBox.read, VolBox.write, hi,
        read_volatile, write_volatile, VolBox.new]

theorem read_at_write_at_spec_witness :
    (VolBox.new 256 : VolBox (Fin 2 → Nat) Access.Allow Access.Allow).read_at
        Readable.allow 4 1 (fun _ => 5)
      = some ((VolBox.new 260 : VolBox Nat Access.Allow Access.Allow).read
          Readable.allow (fun _ => 5)) := by
  have h := (read_at_write_at_spec Readable.allow Writable.allow
    (VolBox.new 256 : VolBox (Fin 2 → Nat) Access.Allow Access.Allow)
    4 1 0 (fun _ => 5)).2 (by decide)
  simpa [VolBox.new] using h.1

/-- C5: on a `VCell`, `get` after `set v` returns `v`; `replace v2` returns
the value held before the call and leaves the cell holding `v2`; and the
transactions `replace` issues are exactly a volatile read of the old value
followed by a volatile store of the new one — two sequential operations. -/
theorem vcell_get_set_replace {T : Type} (c : VCell T) (v v2 : T) (m : Mem T) :
    (c.get (applyTrace m (c.set v))).1 = v
    ∧ (c.replace v2 m).1 = (c.get m).1
    ∧ (c.get (applyTrace m (c.replace v2 m).2)).1 = v2
    ∧ (c.replace v2 m).2
        = [Event.load c.address (m c.address), Event.store c.address v2] := by
  refine ⟨?_, rfl, ?_, rfl⟩ <;>
    simp [VCell.get, VCell.set, VCell.replace, read_volatile, write_volatile,
      applyTrace, applyEvent, memUpd]

/-- C6: a read-capable register's default `read` returns exactly the
`From`-conversion of the raw value currently stored in its cell; a
write-capable register's default `write w` stores the `Into`-conversion of `w`
there, so a subsequent permitted read (through a reader over the same cell)
reflects the converted value of `w`. -/
theorem reg_read_write_spec {V D S : Type} (r : ReadReg V D) (q : WriteReg V S)
    (h : r.toReg = q.toReg) (m : Mem V) (w : S) :
    (r.read m).1 = r.from_val (m r.cell.address)
    ∧ (r.read (applyTrace m (q.write w))).1 = r.from_val (q.into_val w) := by
  constructor
  · rfl
  · simp [ReadReg.read, WriteReg.write, Reg.access_with, VCell.get, VCell.set,
      read_volatile, write_volatile, applyTrace, applyEvent, memUpd, h]

theorem reg_read_write_spec_witness :
    ((ReadReg.mk (Reg.mk (VCell.conjure 64)) (fun v : Nat => v + 1)).read
        (applyTrace (fun _ => 0)
          ((WriteReg.mk (Reg.mk (VCell.conjure 64))
              (fun b : Bool => if b then 5 else 0)).write true))).1
      = (ReadReg.mk (Reg.mk (VCell.conjure 64)) (fun v : Nat => v + 1)).from_val
          ((WriteReg.mk (Reg.mk (VCell.conjure 64))
              (fun b : Bool => if b then 5 else 0)).into_val true) :=
  (reg_read_write_spec (ReadReg.mk (Reg.mk (VCell.conjure 64)) (fun v : Nat => v + 1))
    (WriteReg.mk (Reg.mk (VCell.conjure 64)) (fun b : Bool => if b then 5 else 0))
    rfl (fun _ => 0) true).2

/-- C7 counterexample: acquisition performs no check at all.  `new` at the null
address `0` — and at address `2`, misaligned for a four-byte element type —
completes normally and hands back a handle, where the claim requires a
debug-build abort on a null or misaligned address. -/
theorem new_no_debug_checks_counterexample :
    (VolBox.new_outcome 0 : Option (VolBox Nat Access.Allow Access.Allow))
        = some (VolBox.new 0)
    ∧ (VolBox.new 0 : VolBox Nat Access.Allow Access.Allow).into_raw = 0
    ∧ (VolBox.new_outcome 2 : Option (VolBox (Fin 4 → Nat) Access.Allow Access.Allow))
        ≠ none := by
  refine ⟨rfl, rfl, ?_⟩
  simp [VolBox.new_outcome]

/-- C7 (amended): handle acquisition performs no runtime checks in any build:
`new` stores the supplied address unchanged and never aborts — null and
alignment validity are caller-upheld unsafe preconditions of the constructor,
not asserted anywhere in its body. -/
theorem new_no_debug_checks {T : Type} {R W : Access} (a : Nat) :
    (VolBox.new_outcome a : Option (VolBox T R W)) = some (VolBox.new a)
    ∧ (VolBox.new a : VolBox T R W).into_raw = a :=
  ⟨rfl, rfl⟩

/-- C8: no read or write operation exists for a `Deny`-tagged direction — the
impl blocks of src/lib.rs cover exactly `Warn` and `Allow`, so a `Deny`-tagged
access is impossible to state rather than a runtime failure. -/
theorem deny_access_absent :
    (¬ Readable Access.Deny) ∧ (¬ Writable Access.Deny)
    ∧ Readable Access.Allow ∧ Readable Access.Warn
    ∧ Writable Access.Allow ∧ Writable Access.Warn :=
  ⟨(fun h => nomatch h), (fun h => nomatch h),
    Readable.allow, Readable.warn, Writable.allow, Writable.warn⟩

theorem stepScalar_fold_fst {T : Type} {R W : Access} (hr : Readable R)
    (hw : Writable W) (ops : List (ScalarOp T)) (s : VolBox T R W × Mem T) :
    (ops.foldl (stepScalar hr hw) s).1 = s.1 := by
  induction ops generalizing s with
  | nil => rfl
  | cons op ops ih =>
    rw [List.foldl_cons, ih]
    cases op <;> rfl

theorem stepIdx_fold_none {T : Type} {R W : Access} {N : Nat} (hr : Readable R)
    (hw : Writable W) (z : Nat) (ops : List (IdxOp T)) :
    ops.foldl (stepIdx (N := N) (R := R) (W := W) hr hw z) none = none := by
  induction ops with
  | nil => rfl
  | cons op ops ih =>
    rw [List.foldl_cons]
    exact ih

theorem stepIdx_fold_fst {T : Type} {R W : Access} {N : Nat} (hr : Readable R)
    (hw : Writable W) (z : Nat) (ops : List (IdxOp T))
    (vb : VolBox (Fin N → T) R W) (m : Mem T)
    (p : VolBox (Fin N → T) R W × Mem T)
    (h : ops.foldl (stepIdx hr hw z) (some (vb, m)) = some p) : p.1 = vb := by
  induction ops generalizing vb m with
  | nil =>
    cases h
    rfl
  | cons op ops ih =>
    rw [List.foldl_cons] at h
    cases op with
    | read_at i =>
      by_cases hi : i < N
      · have hstep : stepIdx hr hw z (some (vb, m)) (IdxOp.read_at i)
            = some (vb, applyTrace m (read_volatile m (vb.loc + i * z)).2) := by
          simp [stepIdx, VolBox.read_at, hi]
        rw [hstep] at h
        exact ih _ _ h
      · have hstep : stepIdx hr hw z (some (vb, m)) (IdxOp.read_at i) = none := by
          simp [stepIdx, VolBox.read_at, hi]
        rw [hstep, stepIdx_fold_none] at h
        cases h
    | write_at i v =>
      by_cases hi : i < N
      · have hstep : stepIdx hr hw z (some (vb, m)) (IdxOp.write_at i v)
            = some (vb, applyTrace m (write_volatile (vb.loc + i * z) v)) := by
          simp [stepIdx, VolBox.write_at, hi]
        rw [hstep] at h
        exact ih _ _ h
      · have hstep : stepIdx hr hw z (some (vb, m)) (IdxOp.write_at i v) = none := by
          simp [stepIdx, VolBox.write_at, hi]
        rw [hstep, stepIdx_fold_none] at h
        cases h

/-- C9: every operation leaves the handle's stored address unchanged — `write`
returns the receiver with the same address, a succeeding `write_at` likewise —
so after any sequence of reads and writes (scalar or indexed, the latter
provided no call panicked), `into_raw` still returns the exact address passed
to `new`. -/
theorem into_raw_stable {T : Type} {R W : Access} {N : Nat} (hr : Readable R)
    (hw : Writable W) (z : Nat) (vb : VolBox T R W)
    (av : VolBox (Fin N → T) R W) (v : T) (i : Nat) :
    ((vb.write hw v).1.into_raw = vb.into_raw)
    ∧ (∀ p, av.write_at hw z i v = some p → p.1.into_raw = av.into_raw)
    ∧ (∀ (ops : List (ScalarOp T)) (m : Mem T) (a : Nat),
        ((ops.foldl (stepScalar hr hw) (VolBox.new a, m)).1.into_raw = a))
    ∧ (∀ (ops : List (IdxOp T)) (m : Mem T) (a : Nat)
          (p : VolBox (Fin N → T) R W × Mem T),
        ops.foldl (stepIdx hr hw z) (some (VolBox.new a, m)) = some p →
          p.1.into_raw = a) := by
  refine ⟨rfl, ?_, ?_, ?_⟩
  · intro p hp
    by_cases hi : i < N
    · simp [VolBox.write_at, hi] at hp
      rw [← hp]
    · simp [VolBox.write_at, hi] at hp
  · intro ops m a
    rw [stepScalar_fold_fst]
    rfl
  · intro ops m a p hp
    rw [stepIdx_fold_fst hr hw z ops _ m p hp]
    rfl

theorem into_raw_stable_witness :
    (([ScalarOp.write 3, ScalarOp.read, ScalarOp.write 9].foldl
        (stepScalar Readable.allow Writable.allow)
        ((VolBox.new 16 : VolBox Nat Access.Allow Access.Allow),
          fun _ => 0)).1.into_raw) = 16 :=
  (into_raw_stable (N := 2) Readable.allow Writable.allow 4
    (VolBox.new 16) (VolBox.new 0) 0 0).2.2.1
    [ScalarOp.write 3, ScalarOp.read, ScalarOp.write 9] (fun _ => 0) 16

/-- C10: `VCell::set` and `VolBox::write` update only the slot at their own
target address and leave every other location unchanged; `VCell::get` and
`VolBox::read` leave all of memory unchanged, so two consecutive `get`s with
no intervening store return equal values. -/
theorem volatile_frame_effects {T : Type} {R W : Access} (hr : Readable R)
    (hw : Writable W) (c : VCell T) (vb : VolBox T R W) (v : T) (m : Mem T) :
    (∀ x, x ≠ c.address → applyTrace m (c.set v) x = m x)
    ∧ applyTrace m (c.set v) c.address = v
    ∧ (∀ x, x ≠ vb.loc → applyTrace m (vb.write hw v).2 x = m x)
    ∧ applyTrace m (c.get m).2 = m
    ∧ applyTrace m (vb.read hr m).2 = m
    ∧ (c.get (applyTrace m (c.get m).2)).1 = (c.get m).1 := by
  refine ⟨?_, ?_, ?_, rfl, rfl, rfl⟩
  · intro x hx
    simp [VCell.set, write_volatile, applyTrace, applyEvent, memUpd, hx]
  · simp [VCell.set, write_volatile, applyTrace, applyEvent, memUpd]
  · intro x hx
    simp [VolBox.write, write_volatile, applyTrace, applyEvent, memUpd, hx]

theorem volatile_frame_effects_witness :
    applyTrace (fun _ => 7) ((VCell.conjure 32 : VCell Nat).set 9) 32 = 9 :=
  (volatile_frame_effects Readable.allow Writable.allow (VCell.conjure 32)
    (VolBox.new 8 : VolBox Nat Access.Allow Access.Allow) 9 (fun _ => 7)).2.1
